import Mathlib

/-!
Verification development for the reaDrum Machine backup tools
(`readrum_parser.py`, `readrum_injector.py`, `make_replacements_from_csvs.py`).

Python text is modelled as `List Nat` of character code points; byte
buffers are `List Nat` of bytes.  The `latin1` codec is byte-preserving,
so decoding bytes to text is the identity embedding and encoding with
`errors='replace'` clamps code points above 255 to `?`.

All recursive functions are written with structural recursion or an
explicit fuel argument equal to the input length, so that every
definition evaluates inside the kernel (`decide` / `rfl`).
-/

set_option maxRecDepth 100000

/-- Whitespace test matching Python's `\s` / `str.strip()` on the
character set that occurs in these files (ASCII whitespace plus the
common extra Unicode whitespace code points). -/
def pyIsSpace (c : Nat) : Bool :=
  c == 32 || c == 9 || c == 10 || c == 11 || c == 12 || c == 13 ||
  c == 28 || c == 29 || c == 30 || c == 31 || c == 133 || c == 160

/-- The base64 alphabet including the `=` padding character, i.e. the
character class `[A-Za-z0-9+/=]` used throughout both scripts. -/
def isB64Char (c : Nat) : Bool :=
  (65 ≤ c && c ≤ 90) || (97 ≤ c && c ≤ 122) || (48 ≤ c && c ≤ 57) ||
  c == 43 || c == 47 || c == 61

/-- Python `str.strip()`: drop whitespace from both ends. -/
def pyStrip (s : List Nat) : List Nat :=
  ((s.dropWhile pyIsSpace).reverse.dropWhile pyIsSpace).reverse

/-- Line-boundary characters of Python `str.splitlines`. -/
def isLineBoundaryChar (c : Nat) : Bool :=
  c == 10 || c == 11 || c == 12 || c == 13 || c == 28 || c == 29 ||
  c == 30 || c == 133 || c == 8232 || c == 8233

/-- Worker for `pySplitlines`; `fuel` bounds the recursion by the input
length (every step consumes at least one character). -/
def splitlinesGo (fuel : Nat) (keep : Bool) (s : List Nat) : List (List Nat) :=
  match fuel with
  | 0 => []
  | f + 1 =>
    match s with
    | [] => []
    | _ =>
      let line := s.takeWhile (fun c => !(isLineBoundaryChar c))
      let rest := s.drop line.length
      match rest with
      | [] => [line]
      | c :: rest2 =>
        if c == 13 then
          match rest2 with
          | 10 :: rest3 =>
            (if keep then line ++ [13, 10] else line) :: splitlinesGo f keep rest3
          | _ => (if keep then line ++ [13] else line) :: splitlinesGo f keep rest2
        else (if keep then line ++ [c] else line) :: splitlinesGo f keep rest2

/-- Python `str.splitlines(keepends)`. -/
def pySplitlines (keep : Bool) (s : List Nat) : List (List Nat) :=
  splitlinesGo s.length keep s

/-- Python substring test `pat in s`. -/
def strContains (s pat : List Nat) : Bool :=
  match s with
  | [] => pat.isEmpty
  | _ :: t => pat.isPrefixOf s || strContains t pat

/-- Worker for `pyCount` (non-overlapping, left-to-right, as Python's
`str.count`); `fuel` bounds the recursion by the input length. -/
def pyCountGo (fuel : Nat) (s pat : List Nat) : Nat :=
  match fuel with
  | 0 => 0
  | f + 1 =>
    match s with
    | [] => 0
    | _ :: t =>
      if pat.isPrefixOf s then 1 + pyCountGo f (s.drop pat.length) pat
      else pyCountGo f t pat

/-- Python `s.count(pat)`: number of non-overlapping occurrences
(`len(s)+1` for the empty pattern, as in Python). -/
def pyCount (s pat : List Nat) : Nat :=
  if pat.isEmpty then s.length + 1 else pyCountGo s.length s pat

/-- Worker for `pyReplace`; `fuel` bounds the recursion. -/
def pyReplaceGo (fuel : Nat) (s old new : List Nat) : List Nat :=
  match fuel with
  | 0 => s
  | f + 1 =>
    match s with
    | [] => []
    | a :: t =>
      if old.isPrefixOf s then new ++ pyReplaceGo f (s.drop old.length) old new
      else a :: pyReplaceGo f t old new

/-- Python `s.replace(old, new)`: replace every non-overlapping
occurrence, left to right.  For the empty pattern Python interleaves
`new` around every character. -/
def pyReplace (s old new : List Nat) : List Nat :=
  if old.isEmpty then new ++ s.foldr (fun c acc => c :: (new ++ acc)) []
  else pyReplaceGo s.length s old new

/-- Worker for `pySplit`; `fuel` bounds the recursion. -/
def pySplitGo (fuel : Nat) (s sep : List Nat) : List (List Nat) :=
  match fuel with
  | 0 => [s]
  | f + 1 =>
    match s with
    | [] => [[]]
    | a :: t =>
      if sep.isPrefixOf s then [] :: pySplitGo f (s.drop sep.length) sep
      else
        match pySplitGo f t sep with
        | [] => [[a]]
        | h :: rest => (a :: h) :: rest

/-- Python `s.split(sep)` for a non-empty separator. -/
def pySplit (s sep : List Nat) : List (List Nat) :=
  pySplitGo s.length s sep

/-- Worker for `findB64Runs`; `fuel` bounds the recursion. -/
def findB64RunsGo (fuel : Nat) (s : List Nat) : List (List Nat) :=
  match fuel with
  | 0 => []
  | f + 1 =>
    match s with
    | [] => []
    | a :: t =>
      if isB64Char a then
        let run := s.takeWhile isB64Char
        let rest := s.drop run.length
        if 20 ≤ run.length then run :: findB64RunsGo f rest
        else findB64RunsGo f rest
      else findB64RunsGo f t

/-- `re.findall(r"[A-Za-z0-9+/=]{20,}", s)`: the maximal runs of base64
alphabet characters of length at least 20, left to right. -/
def findB64Runs (s : List Nat) : List (List Nat) :=
  findB64RunsGo s.length s

/-- Worker for `chunks76`. -/
def chunksGo (fuel n : Nat) (s : List Nat) : List (List Nat) :=
  match fuel with
  | 0 => []
  | f + 1 =>
    match s with
    | [] => []
    | _ => s.take n :: chunksGo f n (s.drop n)

/-- Split a string into 76-character chunks, as in
`new_outer_b64[i:i+76] for i in range(0, len(new_outer_b64), 76)`
(`readrum_injector.py:103`). -/
def chunks76 (s : List Nat) : List (List Nat) :=
  chunksGo s.length 76 s

/-- Python `sep.join(parts)`. -/
def pyJoinSep (sep : List Nat) : List (List Nat) → List Nat
  | [] => []
  | [x] => x
  | x :: xs => x ++ sep ++ pyJoinSep sep xs

/-- Python list slice assignment `l[a:b] = xs` (indices clamped to the
list length, `b < a` treated as insertion at `a`), as used in
`text_lines[start_i+1:end_i] = [new_block]` (`readrum_injector.py:244`). -/
def pySplice (l : List (List Nat)) (a b : Nat) (xs : List (List Nat)) :
    List (List Nat) :=
  let n := l.length
  l.take (min a n) ++ xs ++ l.drop (min (max a b) n)

/-- Value of one base64 alphabet character (`=` and anything else is
`none`). -/
def b64CharVal (c : Nat) : Option Nat :=
  if 65 ≤ c && c ≤ 90 then some (c - 65)
  else if 97 ≤ c && c ≤ 122 then some (c - 71)
  else if 48 ≤ c && c ≤ 57 then some (c + 4)
  else if c == 43 then some 62
  else if c == 47 then some 63
  else none

/-- The base64 alphabet character for a 6-bit value. -/
def b64DigitChar (v : Nat) : Nat :=
  if v < 26 then v + 65
  else if v < 52 then v + 71
  else if v < 62 then v - 4
  else if v == 62 then 43
  else 47

/-- Decode a base64 string (already filtered to alphabet characters and
`=`) four characters at a time, with standard `=` padding in the final
quantum; any other shape fails, mirroring the `binascii.Error` raised by
`base64.b64decode` and caught by the scripts' `try/except`. -/
def pyB64decodeQuanta : List Nat → Option (List Nat)
  | [] => some []
  | c1 :: c2 :: c3 :: c4 :: rest =>
    match b64CharVal c1, b64CharVal c2 with
    | some v1, some v2 =>
      if c3 == 61 then
        if c4 == 61 && rest.isEmpty then some [v1 * 4 + v2 / 16] else none
      else
        match b64CharVal c3 with
        | some v3 =>
          if c4 == 61 then
            if rest.isEmpty then
              some [v1 * 4 + v2 / 16, (v2 % 16) * 16 + v3 / 4]
            else none
          else
            match b64CharVal c4 with
            | some v4 =>
              match pyB64decodeQuanta rest with
              | some bs =>
                some ([v1 * 4 + v2 / 16, (v2 % 16) * 16 + v3 / 4,
                       (v3 % 4) * 64 + v4] ++ bs)
              | none => none
            | none => none
        | none => none
    | _, _ => none
  | _ => none

/-- `base64.b64decode`: characters outside the alphabet are ignored,
then the string is decoded in 4-character quanta; a padding error yields
`none` (the scripts catch the exception and skip the candidate). -/
def pyB64decode (s : List Nat) : Option (List Nat) :=
  pyB64decodeQuanta (s.filter isB64Char)

/-- `base64.b64encode`: canonical encoding with `=` padding. -/
def pyB64encode : List Nat → List Nat
  | [] => []
  | [b1] => [b64DigitChar (b1 / 4), b64DigitChar (b1 % 4 * 16), 61, 61]
  | [b1, b2] =>
    [b64DigitChar (b1 / 4), b64DigitChar (b1 % 4 * 16 + b2 / 16),
     b64DigitChar (b2 % 16 * 4), 61]
  | b1 :: b2 :: b3 :: rest =>
    [b64DigitChar (b1 / 4), b64DigitChar (b1 % 4 * 16 + b2 / 16),
     b64DigitChar (b2 % 16 * 4 + b3 / 64), b64DigitChar (b3 % 64)] ++
    pyB64encode rest

/-- `bytes.decode('latin1', errors='replace')`: each byte becomes the
character with the same code point, so on our model it is the identity. -/
def latin1Decode (bs : List Nat) : List Nat := bs

/-- `str.encode('latin1', errors='replace')`: code points above 255 are
replaced by `?` (63). -/
def latin1Encode (s : List Nat) : List Nat :=
  s.map (fun c => if c ≤ 255 then c else 63)

/-- Convert a Lean string literal to the code-point list model. -/
def str2c (s : String) : List Nat :=
  s.toList.map Char.toNat

/-- The line test `re.match(r"^\s*[A-Za-z0-9+/=]{20,}\s*$", line)` used
by both scripts to recognise base64 lines (the two character classes are
disjoint, so the greedy regex is equivalent to this shape test). -/
def lineIsB64 (l : List Nat) : Bool :=
  let rest := l.dropWhile pyIsSpace
  let core := rest.takeWhile isB64Char
  decide (20 ≤ core.length) && (rest.drop core.length).all pyIsSpace

/-- The closing-marker test `re.match(r"^\s*>\s*$", line)`. -/
def isCloseLine (l : List Nat) : Bool :=
  pyStrip l == [62]

/-- `re.match(r"\s*<PRESET `([^`]+)`", line)`: returns the backtick
quoted preset name when the line is a preset opener. -/
def presetOpenName (l : List Nat) : Option (List Nat) :=
  let rest := l.dropWhile pyIsSpace
  if [60, 80, 82, 69, 83, 69, 84, 32, 96].isPrefixOf rest then
    let after := rest.drop 9
    let nm := after.takeWhile (fun c => !(c == 96))
    if nm.isEmpty then none
    else if (after.drop nm.length).head? == some 96 then some nm else none
  else none

/-- One preset span found by `find_preset_blocks`: name, opening-line
index, index of the closing line (or end of file), and the joined text
of the lines strictly between them. -/
structure PresetSpan where
  name : List Nat
  startIdx : Nat
  endIdx : Nat
  block : List Nat
deriving DecidableEq

/-- Worker for `find_preset_blocks`; `fuel` bounds the recursion by the
number of lines (each call consumes at least the opening line). -/
def fpbGo (fuel : Nat) (rem : List (List Nat)) (i : Nat) : List PresetSpan :=
  match fuel with
  | 0 => []
  | f + 1 =>
    match rem with
    | [] => []
    | line :: rest =>
      match presetOpenName line with
      | some nm =>
        let blk := rest.takeWhile (fun x => !(isCloseLine x))
        let endI := i + 1 + blk.length
        { name := nm, startIdx := i, endIdx := endI, block := blk.flatten } ::
          fpbGo f (rest.drop blk.length) endI
      | none => fpbGo f rest (i + 1)

/-- `find_preset_blocks` (`readrum_injector.py:20-39`; the version in
`readrum_parser.py:19-37` is identical except that it drops the two
indices, so both scripts are modelled by this one definition). -/
def find_preset_blocks (text : List Nat) : List PresetSpan :=
  let lines := pySplitlines true text
  fpbGo lines.length lines 0

/-- One replacement rule, a row of the replacements table
(`preset,container,old_path,new_path`). -/
structure Rule where
  preset : List Nat
  container : List Nat
  old_path : List Nat
  new_path : List Nat
deriving DecidableEq

/-- One entry of the `changes_report` built by `replace_in_block`
(`readrum_injector.py:87`). -/
structure RepEntry where
  old_path : List Nat
  new_path : List Nat
  count : Nat
  tokenHead : List Nat
deriving DecidableEq

/-- State of the inner `for row in replacements` loop
(`readrum_injector.py:79-87`): current decoded token text, the
per-token `inner_changed` flag, and the global report list. -/
structure InnerSt where
  text : List Nat
  changed : Bool
  report : List RepEntry
deriving DecidableEq

/-- State across the `for inner_token in ...` loop
(`readrum_injector.py:72-96`): mutable `outer_text`, `outer_bytes`, the
function-global `changed` flag and the report list. -/
structure OuterSt where
  otext : List Nat
  obytes : List Nat
  changed : Bool
  report : List RepEntry
deriving DecidableEq

/-- State across the `for outer_b64, outer_orig_text in blocks` loop of
`replace_in_block`: `new_block_text`, `changed`, `changes_report`. -/
structure BlockSt where
  btext : List Nat
  changed : Bool
  report : List RepEntry
deriving DecidableEq

/-- One step of the base64-line grouping loop of `replace_in_block`
(`readrum_injector.py:48-56`): state is (finished blocks, joined
stripped text of the current run, joined original text of the run). -/
def collectOuterBlocksStep
    (st : List (List Nat × List Nat) × List Nat × List Nat)
    (line : List Nat) : List (List Nat × List Nat) × List Nat × List Nat :=
  if lineIsB64 line then (st.1, st.2.1 ++ pyStrip line, st.2.2 ++ line)
  else if st.2.1.isEmpty then st
  else (st.1 ++ [(st.2.1, st.2.2)], [], [])

/-- The grouping of contiguous base64-looking lines into outer blocks
(`readrum_injector.py:44-58`), keeping both the joined stripped content
and the original text of each group. -/
def collectOuterBlocks (btext : List Nat) : List (List Nat × List Nat) :=
  let fin := (pySplitlines true btext).foldl collectOuterBlocksStep ([], [], [])
  if fin.2.1.isEmpty then fin.1 else fin.1 ++ [(fin.2.1, fin.2.2)]

/-- Body of the `for row in replacements` loop
(`readrum_injector.py:79-87`): `if old and old in inner_text`, count the
occurrences, replace all of them, set `inner_changed`, and append a
report entry when reporting is on. -/
def applyRule (reportFlag : Bool) (token : List Nat) (st : InnerSt)
    (r : Rule) : InnerSt :=
  if !r.old_path.isEmpty && strContains st.text r.old_path then
    { text := pyReplace st.text r.old_path r.new_path
      changed := true
      report :=
        if reportFlag then
          st.report ++ [{ old_path := r.old_path, new_path := r.new_path,
                          count := pyCount st.text r.old_path,
                          tokenHead := token.take 20 }]
        else st.report }
  else st

/-- Body of the `for inner_token in re.findall(...)` loop
(`readrum_injector.py:72-96`): decode the token (skip on failure), run
all rules over its text, and if anything changed substitute the
re-encoded token back into `outer_text` and refresh `outer_bytes`. -/
def processToken (reportFlag : Bool) (rules : List Rule) (st : OuterSt)
    (token : List Nat) : OuterSt :=
  match pyB64decode token with
  | none => st
  | some ib =>
    let fin := rules.foldl (applyRule reportFlag token)
      { text := latin1Decode ib, changed := false, report := st.report }
    if fin.changed then
      let ot := pyReplace st.otext token (pyB64encode (latin1Encode fin.text))
      { otext := ot, obytes := latin1Encode ot, changed := true,
        report := fin.report }
    else
      { otext := st.otext, obytes := st.obytes, changed := st.changed,
        report := fin.report }

/-- `re.search(r"^(\s*)[A-Za-z0-9+/=]{20,}", outer_orig_text)` indent
recovery (`readrum_injector.py:101-102`), defaulting to four spaces. -/
def indentOf (orig : List Nat) : List Nat :=
  let ind := orig.takeWhile pyIsSpace
  if 20 ≤ ((orig.drop ind.length).takeWhile isB64Char).length then ind
  else [32, 32, 32, 32]

/-- Body of the `for outer_b64, outer_orig_text in blocks` loop of
`replace_in_block` (`readrum_injector.py:65-105`).  Note that the
re-encoding condition at line 97 tests the function-global `changed`
flag, not a per-block flag. -/
def processOuterBlock (reportFlag : Bool) (rules : List Rule)
    (st : BlockSt) (blk : List Nat × List Nat) : BlockSt :=
  match pyB64decode blk.1 with
  | none => st
  | some ob =>
    let fin := (findB64Runs (latin1Decode ob)).foldl
      (processToken reportFlag rules)
      { otext := latin1Decode ob, obytes := ob, changed := st.changed,
        report := st.report }
    if fin.changed then
      let b64lines :=
        pyJoinSep [10]
          ((chunks76 (pyB64encode fin.obytes)).map
            (fun c => indentOf blk.2 ++ c)) ++ [10]
      { btext := pyReplace st.btext blk.2 b64lines, changed := true,
        report := fin.report }
    else { btext := st.btext, changed := fin.changed, report := fin.report }

/-- `replace_in_block(block_text, replacements, report)`
(`readrum_injector.py:42-106`): returns the new span text, the changed
flag and the changes report. -/
def replace_in_block (block_text : List Nat) (replacements : List Rule)
    (reportFlag : Bool) : BlockSt :=
  (collectOuterBlocks block_text).foldl
    (processOuterBlock reportFlag replacements)
    { btext := block_text, changed := false, report := [] }

/-- The decoded text of every inner token the engine consults in a span:
for each decodable outer block, the decodable tokens of its decoded
text.  Used to state when `replace_in_block` finds nothing to do. -/
def blockInnerTexts (blk : List Nat × List Nat) : List (List Nat) :=
  match pyB64decode blk.1 with
  | none => []
  | some ob =>
    (findB64Runs (latin1Decode ob)).filterMap
      (fun t => (pyB64decode t).map latin1Decode)

/-- All decoded inner-token texts of a preset span's text. -/
def decodedInnerTexts (block_text : List Nat) : List (List Nat) :=
  (collectOuterBlocks block_text).foldr
    (fun blk acc => blockInnerTexts blk ++ acc) []

/-- `target_reps` selection in `main` (`readrum_injector.py:237`):
rules whose preset is blank or equal to the span's name. -/
def targetRepsFor (reps : List Rule) (pname : List Nat) : List Rule :=
  reps.filter (fun r => r.preset.isEmpty || r.preset == pname)

/-- Body of the `for pname, start_i, end_i, block in presets` loop of
`main` (`readrum_injector.py:235-244`): skip when no rule targets the
preset, otherwise run the engine and splice the new span text over the
recorded line range when it changed. -/
def mainStep (reps : List Rule) (st : List (List Nat) × Bool)
    (p : PresetSpan) : List (List Nat) × Bool :=
  let tr := targetRepsFor reps p.name
  if tr.isEmpty then st
  else
    let res := replace_in_block p.block tr true
    if res.changed then
      (pySplice st.1 (p.startIdx + 1) p.endIdx [res.btext], true)
    else st

/-- The rewrite loop of `main` (`readrum_injector.py:231-249`): for each
preset span in order, run `replace_in_block` on the rules targeting it
and, if it changed, splice the new span text over the lines strictly
between the recorded marker indices.  Returns the final line list and
the `modified` flag. -/
def mainRewrite (text : List Nat) (reps : List Rule) :
    List (List Nat) × Bool :=
  (find_preset_blocks text).foldl (mainStep reps)
    (pySplitlines true text, false)

/-- The two file-system effects of the write phase of `main`. -/
inductive FsAction where
  | renameToBak : FsAction
  | writeNewContent : FsAction
deriving DecidableEq

/-- Effect trace of the write phase of `main`
(`readrum_injector.py:251-261`): nothing happens unless `modified`, a
dry run writes nothing, and otherwise `inp.replace(bak)` runs before
`inp.write_text(...)`. -/
def mainFsActions (text : List Nat) (reps : List Rule) (dryRun : Bool) :
    List FsAction :=
  if (mainRewrite text reps).2 then
    if dryRun then [] else [FsAction.renameToBak, FsAction.writeNewContent]
  else []

/-- Observable events of the input phase of `main`. -/
inductive MainEvent where
  | readRplText : MainEvent
  | readCsv : MainEvent
  | fatalMissingInput : MainEvent
deriving DecidableEq

/-- Effect trace of the input phase of `main`
(`readrum_injector.py:119-161`): the RPL text is read at line 121,
before the replacement-source dispatch; with no source at all,
`parser.error` fires at line 159. -/
def mainPrelude (hasReplacements hasCsvPair hasPosCsv : Bool) :
    List MainEvent :=
  [MainEvent.readRplText] ++
    (if hasReplacements then [MainEvent.readCsv]
     else if hasCsvPair then [MainEvent.readCsv, MainEvent.readCsv]
     else if hasPosCsv then [MainEvent.readCsv]
     else [MainEvent.fatalMissingInput])

/-- The character class of the parser's path pattern
`[\w\- .,/\\()\[\]':]` (`readrum_parser.py:58`), on the ASCII range that
occurs in these files. -/
def parserPathClass (c : Nat) : Bool :=
  (65 ≤ c && c ≤ 90) || (97 ≤ c && c ≤ 122) || (48 ≤ c && c ≤ 57) ||
  c == 95 || c == 45 || c == 32 || c == 46 || c == 44 || c == 47 ||
  c == 92 || c == 40 || c == 41 || c == 91 || c == 93 || c == 39 || c == 58

/-- The parser's extension alternation, in source order
(`wav|WAV|aif|aiff|aifc|flac|ogg|mp3|sfz|WAV|AIFF|SFZ`). -/
def parserExts : List (List Nat) :=
  [str2c "wav", str2c "WAV", str2c "aif", str2c "aiff", str2c "aifc",
   str2c "flac", str2c "ogg", str2c "mp3", str2c "sfz", str2c "WAV",
   str2c "AIFF", str2c "SFZ"]

/-- First extension of an ordered alternation that is a prefix of `s`. -/
def extAt (exts : List (List Nat)) (s : List Nat) : Option (List Nat) :=
  match exts with
  | [] => none
  | e :: rest => if e.isPrefixOf s then some e else extAt rest s

/-- Greedy backtracking of the parser's `[class]+` body: try the run
length `m` from the maximum downwards until a `.ext` tail matches.
Returns the matched text and the remainder after the match. -/
def parserTryM (rest : List Nat) (m : Nat) : Option (List Nat × List Nat) :=
  match m with
  | 0 => none
  | mm + 1 =>
    match rest.drop (mm + 1) with
    | 46 :: tl =>
      match extAt parserExts tl with
      | some e =>
        some (47 :: (rest.take (mm + 1) ++ (46 :: e)), tl.drop e.length)
      | none => parserTryM rest mm
    | _ => parserTryM rest mm

/-- Match the parser's path regex at the start of `s`:
`/` then a greedy non-empty class run then `.` then an extension. -/
def parserTryMatch (s : List Nat) : Option (List Nat × List Nat) :=
  match s with
  | 47 :: rest => parserTryM rest (rest.takeWhile parserPathClass).length
  | _ => none

/-- Worker for `parserFindIter`; `fuel` bounds the recursion. -/
def parserFindIterGo (fuel : Nat) (s : List Nat) : List (List Nat) :=
  match fuel with
  | 0 => []
  | f + 1 =>
    match s with
    | [] => []
    | _ :: t =>
      match parserTryMatch s with
      | some (m, rem) => m :: parserFindIterGo f rem
      | none => parserFindIterGo f t

/-- `path_re.finditer(inner_text)` of the parser
(`readrum_parser.py:82`): leftmost non-overlapping matches. -/
def parserFindIter (s : List Nat) : List (List Nat) :=
  parserFindIterGo s.length s

/-- The literal `Container "` of the parser's header pattern. -/
def litContainerQ : List Nat := str2c "Container \""

/-- Worker for `containerHeaderSearch`; on a failed capture the search
advances one position, as `re.search` does. -/
def containerHeaderGo (fuel : Nat) (s : List Nat) : Option (List Nat) :=
  match fuel with
  | 0 => none
  | f + 1 =>
    match s with
    | [] => none
    | _ :: t =>
      if litContainerQ.isPrefixOf s then
        let after := s.drop 11
        let cap := after.takeWhile (fun c => !(c == 34))
        if !cap.isEmpty && ((after.drop cap.length).head? == some 34) then
          some cap
        else containerHeaderGo f t
      else containerHeaderGo f t

/-- `re.search(r'Container "([^"]+)"', ch)` (`readrum_parser.py:70`). -/
def containerHeaderSearch (s : List Nat) : Option (List Nat) :=
  containerHeaderGo s.length s

/-- One step of the parser's base64-line grouping
(`readrum_parser.py:46-54`): like the injector's, but only the stripped
joined content is kept. -/
def parserCollectStep (st : List (List Nat) × List Nat) (line : List Nat) :
    List (List Nat) × List Nat :=
  if lineIsB64 line then (st.1, st.2 ++ pyStrip line)
  else if st.2.isEmpty then st
  else (st.1 ++ [st.2], [])

/-- `extract_paths_from_block(block_text)` (`readrum_parser.py:40-87`):
group base64 lines, decode each outer block, split on `<CONTAINER`,
read the container label per chunk, and append one `(container, path)`
result per path-pattern match of every decodable inner token, the path
truncated at its first NUL. -/
def extract_paths_from_block (block_text : List Nat) :
    List (List Nat × List Nat) :=
  let fin := (pySplitlines false block_text).foldl parserCollectStep ([], [])
  let blocks := if fin.2.isEmpty then fin.1 else fin.1 ++ [fin.2]
  blocks.foldr
    (fun b acc =>
      (match pyB64decode b with
       | none => []
       | some outer =>
         (pySplit (latin1Decode outer) (str2c "<CONTAINER")).foldr
           (fun ch acc2 =>
             ((findB64Runs ch).foldr
               (fun inn acc3 =>
                 (match pyB64decode inn with
                  | none => []
                  | some ibytes =>
                    (parserFindIter (latin1Decode ibytes)).map
                      (fun p => ((containerHeaderSearch ch).getD [],
                                 p.takeWhile (fun c => !(c == 0))))) ++ acc3)
               []) ++ acc2)
           []) ++ acc)
    []

/-- One output row of the parser (`preset,container,note,path`). -/
structure PathRecord where
  preset : List Nat
  container : List Nat
  note : List Nat
  path : List Nat
deriving DecidableEq

/-- The note derivation inlined in the parser's `main`
(`readrum_parser.py:102`):
`container.split(':',1)[0].strip() if ':' in container else ''`. -/
def parserNoteOf (container : List Nat) : List Nat :=
  if strContains container [58] then
    pyStrip (container.takeWhile (fun c => !(c == 58)))
  else []

/-- The row list built by the parser's `main`
(`readrum_parser.py:97-103`). -/
def readrumParserRows (text : List Nat) : List PathRecord :=
  (find_preset_blocks text).foldr
    (fun p acc =>
      ((extract_paths_from_block p.block).map
        (fun cp => { preset := p.name, container := cp.1,
                     note := parserNoteOf cp.1, path := cp.2 })) ++ acc)
    []

/-- The character class `[^\x00\n\r\"]` of the injector's path pattern
(`readrum_injector.py:169`). -/
def injPathClass (c : Nat) : Bool :=
  !(c == 0 || c == 10 || c == 13 || c == 34)

/-- The injector's extension alternation `wav|aiff?|flac|ogg|mp3|sfz|
WAV|AIF`, with the greedy optional `f` expanded in preference order. -/
def injExts : List (List Nat) :=
  [str2c "wav", str2c "aiff", str2c "aif", str2c "flac", str2c "ogg",
   str2c "mp3", str2c "sfz", str2c "WAV", str2c "AIF"]

/-- Lazy `[^\x00\n\r\"]+?\.ext` loop: at each position first try to end
the match with `.ext`, otherwise consume one more class character.
`acc` holds the consumed characters in reverse. -/
def injLazyGo (fuel : Nat) (acc : List Nat) (l : List Nat) :
    Option (List Nat × List Nat) :=
  match fuel with
  | 0 => none
  | f + 1 =>
    match l with
    | [] => none
    | 46 :: tl =>
      match extAt injExts tl with
      | some e => some (acc.reverse ++ (46 :: e), tl.drop e.length)
      | none => injLazyGo f (46 :: acc) tl
    | c :: tl => if injPathClass c then injLazyGo f (c :: acc) tl else none

/-- Match the injector's path pattern
`/(?:Volumes|Users)[^\x00\n\r\"]+?\.ext` at the start of `s`. -/
def injTryMatch (s : List Nat) : Option (List Nat × List Nat) :=
  match s with
  | 47 :: rest =>
    let vu :=
      if (str2c "Volumes").isPrefixOf rest then some (str2c "Volumes")
      else if (str2c "Users").isPrefixOf rest then some (str2c "Users")
      else none
    match vu with
    | none => none
    | some v =>
      match rest.drop v.length with
      | [] => none
      | c :: tl =>
        if injPathClass c then
          match injLazyGo tl.length [c] tl with
          | some (body, rem) => some ((47 :: v) ++ body, rem)
          | none => none
        else none
  | _ => none

/-- Worker for `injPathSearch`. -/
def injPathSearchGo (fuel : Nat) (s : List Nat) : Option (List Nat) :=
  match fuel with
  | 0 => none
  | f + 1 =>
    match s with
    | [] => none
    | _ :: t =>
      match injTryMatch s with
      | some pr => some pr.1
      | none => injPathSearchGo f t

/-- `path_re.search(inner_text)` of the injector
(`readrum_injector.py:202`): leftmost match of the path pattern. -/
def injPathSearch (s : List Nat) : Option (List Nat) :=
  injPathSearchGo s.length s

/-- Python `s.strip('\x00')`: drop NUL bytes from both ends
(`readrum_injector.py:204`). -/
def stripNul (s : List Nat) : List Nat :=
  ((s.dropWhile (fun c => c == 0)).reverse.dropWhile (fun c => c == 0)).reverse

/-- Decode one inner token and search its text for a path, as one step
of the fragment loop of `extract_map_from_rpl_text`
(`readrum_injector.py:196-205`). -/
def decodeSearchTok (tok : List Nat) : Option (List Nat) :=
  match pyB64decode tok with
  | none => none
  | some ib =>
    match injPathSearch (latin1Decode ib) with
    | some p => some (stripNul p)
    | none => none

/-- The `for inner_token in inner_b64_re.findall(frag)` loop with its
`break` (`readrum_injector.py:196-205`): first token that decodes and
contains a path match wins. -/
def fragFoundGo : List (List Nat) → Option (List Nat)
  | [] => none
  | tok :: rest =>
    match pyB64decode tok with
    | none => fragFoundGo rest
    | some ib =>
      match injPathSearch (latin1Decode ib) with
      | some p => some (stripNul p)
      | none => fragFoundGo rest

/-- Path extraction from one container fragment in
`extract_map_from_rpl_text`. -/
def fragFound (frag : List Nat) : Option (List Nat) :=
  fragFoundGo (findB64Runs frag)

/-- Worker for `injHeaderSearch`: the pattern
`Container\s+"([^:]+):\s*([^\"]+)"` (`readrum_injector.py:188`), with
the regex backtracking between `\s*` and `[^"]+` resolved exactly. -/
def injHeaderGo (fuel : Nat) (s : List Nat) :
    Option (List Nat × List Nat) :=
  match fuel with
  | 0 => none
  | f + 1 =>
    match s with
    | [] => none
    | _ :: t =>
      if (str2c "Container").isPrefixOf s then
        let w := (s.drop 9).takeWhile pyIsSpace
        if w.isEmpty then injHeaderGo f t
        else
          match (s.drop 9).drop w.length with
          | 34 :: tl =>
            let g1 := tl.takeWhile (fun c => !(c == 58))
            if g1.isEmpty then injHeaderGo f t
            else
              match tl.drop g1.length with
              | 58 :: tl2 =>
                let q := tl2.takeWhile (fun c => !(c == 34))
                if q.isEmpty then injHeaderGo f t
                else if (tl2.drop q.length).head? == some 34 then
                  some (g1, q.drop (min (q.takeWhile pyIsSpace).length
                                        (q.length - 1)))
                else injHeaderGo f t
              | _ => injHeaderGo f t
          | _ => injHeaderGo f t
      else injHeaderGo f t

/-- `re.search(r'Container\s+"([^:]+):\s*([^\"]+)"', 'CONTAINER'+frag)`
returning the two capture groups (note text, container text). -/
def injHeaderSearch (s : List Nat) : Option (List Nat × List Nat) :=
  injHeaderGo s.length s

/-- Identity tuple `(preset, container, note)`. -/
abbrev IdKey : Type := List Nat × List Nat × List Nat

/-- A snapshot mapping from identity tuples to paths, modelling the
Python dict (insertion order preserved). -/
abbrev SnapMap : Type := List (IdKey × List Nat)

/-- `if key not in result: result[key] = found`
(`readrum_injector.py:208-209`): first path per tuple wins. -/
def insertIfAbsent (m : SnapMap) (k : IdKey) (v : List Nat) : SnapMap :=
  if (m.find? (fun e => decide (e.1 = k))).isSome then m else m ++ [(k, v)]

/-- Python dict assignment `m[key] = v`: overwrite the value of the
(unique) existing binding in place, otherwise append a new binding. -/
def dictInsert : SnapMap → IdKey → List Nat → SnapMap
  | [], k, v => [(k, v)]
  | e :: es, k, v => if e.1 = k then (k, v) :: es else e :: dictInsert es k v

/-- Dict lookup: first entry with the key (keys are unique in both map
builders, so this matches Python). -/
def dictLookup (m : SnapMap) (k : IdKey) : Option (List Nat) :=
  (m.find? (fun e => decide (e.1 = k))).map (fun e => e.2)

/-- The joined base64 content collected by `extract_map_from_rpl_text`
for one preset block (`readrum_injector.py:173-180`): every
base64-looking line of the block, stripped, joined in order. -/
def injB64JoinOfBlock (block : List Nat) : List Nat :=
  (pySplitlines false block).foldr
    (fun L acc => if lineIsB64 L then pyStrip L ++ acc else acc) []

/-- `extract_map_from_rpl_text(text)` (`readrum_injector.py:166-210`):
per preset, decode the joined base64 content, split on `CONTAINER`,
read each fragment's header, take the first path found among its inner
tokens, and record it under `(preset, container, note)` unless that
tuple is already present. -/
def extract_map_from_rpl_text (text : List Nat) : SnapMap :=
  (find_preset_blocks text).foldl
    (fun res p =>
      let bl := injB64JoinOfBlock p.block
      if bl.isEmpty then res
      else
        match pyB64decode bl with
        | none => res
        | some ob =>
          ((pySplit (latin1Decode ob) (str2c "CONTAINER")).drop 1).foldl
            (fun res2 frag =>
              let hd := injHeaderSearch (str2c "CONTAINER" ++ frag)
              match fragFound frag with
              | none => res2
              | some found =>
                insertIfAbsent res2
                  (p.name,
                   (match hd with | some g => pyStrip g.2 | none => []),
                   (match hd with | some g => pyStrip g.1 | none => []))
                  found)
            res)
    []

/-- One row of a parser CSV (`preset,container,note,path`). -/
structure CsvRow where
  preset : List Nat
  container : List Nat
  note : List Nat
  path : List Nat
deriving DecidableEq

/-- The identity tuple of a CSV row. -/
def csvRowKey (r : CsvRow) : IdKey :=
  (r.preset, r.container, r.note)

/-- `read_map(csvp)` (`readrum_injector.py:135-142` and, identically,
`make_replacements_from_csvs.py:17-24`): fold the rows into a dict with
plain assignment, so a later row with the same tuple overwrites an
earlier one. -/
def read_map (rows : List CsvRow) : SnapMap :=
  rows.foldl (fun m row => dictInsert m (csvRowKey row) row.path) []

/-- The claim's derivation of `note` from `container`: the text before
the first colon, empty when there is none (stated from the spec's words
for comparison with the source's `parserNoteOf`, which also strips
whitespace). -/
def noteOfContainerClaim (container : List Nat) : List Nat :=
  if strContains container [58] then container.takeWhile (fun c => !(c == 58))
  else []

/-! ### Concrete inputs used by the witnesses and counterexamples.

All base64 content is produced by `pyB64encode` itself, so each example
is a well-formed nested blob by construction. -/

/-- An old path as it would appear in a replacements CSV. -/
def oldPath1 : List Nat := str2c "/Users/a/kit.wav"

/-- A new path that does not contain `oldPath1`. -/
def newSafe : List Nat := str2c "/Users/b/k2.wav"

/-- A new path that contains `oldPath1` as a prefix. -/
def newGrow : List Nat := str2c "/Users/a/kit.wavX"

/-- Decoded inner-token text containing `oldPath1`. -/
def exInner1 : List Nat := str2c "AB/Users/a/kit.wavCD"

/-- The inner base64 token for `exInner1` (28 characters). -/
def exTok1 : List Nat := pyB64encode exInner1

/-- The outer base64 text whose decoded bytes are `exTok1`
(40 characters, one line). -/
def exOb1 : List Nat := pyB64encode exTok1

/-- A single rule replacing `oldPath1` by `newSafe`, applying to any
preset. -/
def ex1Reps : List Rule :=
  [{ preset := [], container := [], old_path := oldPath1,
     new_path := newSafe }]

/-- Joined stripped content of the second outer block of the C1 input:
forty `A` characters, decoding to thirty zero bytes (so it has no inner
tokens at all). -/
def ex1B2joined : List Nat := List.replicate 40 65

/-- Original text of that second outer block: the same forty `A`
characters wrapped as two lines of twenty. -/
def ex1B2orig : List Nat :=
  List.replicate 20 65 ++ [10] ++ List.replicate 20 65 ++ [10]

/-- A span with two outer blocks: the first contains `oldPath1` inside
an inner token, the second (`ex1B2orig`) has no inner tokens and is
wrapped at 20 characters per line. -/
def ex1Block : List Nat :=
  exOb1 ++ [10] ++ str2c "X" ++ [10] ++ ex1B2orig

/-- A one-outer-block span containing `oldPath1`. -/
def ex3Block : List Nat := exOb1 ++ [10]

/-- A rule whose new path contains its old path. -/
def ex3Reps : List Rule :=
  [{ preset := [], container := [], old_path := oldPath1,
     new_path := newGrow }]

/-- Decoded inner-token text with two parser-pattern path matches
separated by a `;` (not in the parser's path character class). -/
def exInner2 : List Nat := str2c "/aa.wav;/bb.wav"

/-- Inner token for `exInner2` (20 characters). -/
def exTok2 : List Nat := pyB64encode exInner2

/-- A span whose single outer block decodes to `exTok2`. -/
def ex2Block : List Nat := pyB64encode exTok2 ++ [10]

/-- A decoded token text containing `oldPath1` exactly twice. -/
def ex5Text : List Nat :=
  str2c "x/Users/a/kit.wav y/Users/a/kit.wav z"

/-- The rule applied in the C5 witness. -/
def ex5Rule : Rule :=
  { preset := [], container := [], old_path := oldPath1,
    new_path := newSafe }

/-- An arbitrary token string for the C5 witness report entry. -/
def ex5Token : List Nat := str2c "ABCDEFGHIJKLMNOPQRSTUVWX"

/-- Decoded inner-token text with an injector-pattern path. -/
def exInner6 : List Nat := str2c "Q/Users/s/Kick.wavQQ"

/-- Inner token for `exInner6` (28 characters). -/
def exTok6 : List Nat := pyB64encode exInner6

/-- Decoded outer text with a `CONTAINER` delimiter, a
`Container "2: Kick"` header and the inner token. -/
def ex6Outer : List Nat :=
  str2c "CONTAINER Container \"2: Kick\" " ++ exTok6

/-- Outer base64 line for `ex6Outer`. -/
def ex6Ob : List Nat := pyB64encode (latin1Encode ex6Outer)

/-- A full RPL text with one preset `P` around `ex6Ob`. -/
def ex6Text : List Nat :=
  str2c "<PRESET `P`\n" ++ ex6Ob ++ [10] ++ str2c ">\n"

/-- The path record the parser extracts from `ex6Text`. -/
def ex6Record : PathRecord :=
  { preset := str2c "P", container := str2c "2: Kick", note := str2c "2",
    path := str2c "/Users/s/Kick.wav" }

/-- First CSV row of the C7 counterexample. -/
def ex7Row1 : CsvRow :=
  { preset := str2c "p", container := str2c "c", note := str2c "n",
    path := str2c "/old/x.wav" }

/-- Second CSV row with the same identity tuple and a different path. -/
def ex7Row2 : CsvRow :=
  { preset := str2c "p", container := str2c "c", note := str2c "n",
    path := str2c "/new/x.wav" }

/-- The shared identity tuple of the C7 rows. -/
def ex7Key : IdKey := (str2c "p", str2c "c", str2c "n")

/-- Decoded inner-token text of the second preset of the C9 input. -/
def exInner9 : List Nat := str2c "EF/Users/a/kit.wavGH"

/-- Inner token for `exInner9`. -/
def exTok9 : List Nat := pyB64encode exInner9

/-- Outer base64 line content for the second preset of the C9 input. -/
def exOb9 : List Nat := pyB64encode exTok9

/-- A two-preset RPL text: preset `P1` holds `exOb1` wrapped as two
lines of twenty characters, preset `P2` holds `exOb9` on one line.
Both contain `oldPath1` in an inner token. -/
def ex9Text : List Nat :=
  str2c "<PRESET `P1`\n" ++ exOb1.take 20 ++ [10] ++ exOb1.drop 20 ++ [10] ++
  str2c ">\n" ++ str2c "<PRESET `P2`\n" ++ exOb9 ++ [10] ++ str2c ">\n"

/-- A rule set targeting only preset `P1`. -/
def ex9RepsP1 : List Rule :=
  [{ preset := str2c "P1", container := [], old_path := oldPath1,
     new_path := newSafe }]

/-- The first preset span of `ex9Text`. -/
def ex9P : PresetSpan :=
  { name := str2c "P1", startIdx := 0, endIdx := 3,
    block := exOb1.take 20 ++ [10] ++ exOb1.drop 20 ++ [10] }

/-- The second preset span of `ex9Text`. -/
def ex9Q : PresetSpan :=
  { name := str2c "P2", startIdx := 4, endIdx := 6, block := exOb9 ++ [10] }

/-! ### Helper lemmas -/

/-- Membership in a fold that appends the image of each element. -/
theorem mem_foldr_append {α β : Type} (f : α → List β) (l : List α) (x : β) :
    x ∈ l.foldr (fun a acc => f a ++ acc) [] ↔ ∃ a, a ∈ l ∧ x ∈ f a := by
  induction l with
  | nil => simp
  | cons a t ih =>
    simp only [List.foldr_cons, List.mem_append, ih, List.mem_cons]
    constructor
    · rintro (hx | ⟨b, hb, hxb⟩)
      · exact ⟨a, Or.inl rfl, hx⟩
      · exact ⟨b, Or.inr hb, hxb⟩
    · rintro ⟨b, hb | hb, hxb⟩
      · exact Or.inl (hb ▸ hxb)
      · exact Or.inr ⟨b, hb, hxb⟩

/-- A rule with an empty or absent old path leaves the token state
unchanged. -/
theorem applyRule_no_match (rf : Bool) (tok : List Nat) (st : InnerSt)
    (r : Rule)
    (h : r.old_path = [] ∨ strContains st.text r.old_path = false) :
    applyRule rf tok st r = st := by
  unfold applyRule
  rcases h with h | h
  · simp [h]
  · simp [h]

/-- A whole rule list with no matching old path leaves the token state
unchanged. -/
theorem foldl_applyRule_no_match (rf : Bool) (tok : List Nat) :
    ∀ (rules : List Rule) (st : InnerSt),
      (∀ r ∈ rules, r.old_path = [] ∨ strContains st.text r.old_path = false) →
      rules.foldl (applyRule rf tok) st = st := by
  intro rules
  induction rules with
  | nil => intro st _; rfl
  | cons r rs ih =>
    intro st h
    rw [List.foldl_cons,
      applyRule_no_match rf tok st r (h r (List.mem_cons_self r rs))]
    exact ih st (fun r' hr' => h r' (List.mem_cons_of_mem r hr'))

/-- A token whose decoded text matches no rule leaves the outer state
unchanged. -/
theorem processToken_no_match (rf : Bool) (rules : List Rule) (st : OuterSt)
    (tok : List Nat)
    (h : ∀ ib, pyB64decode tok = some ib → ∀ r ∈ rules,
        r.old_path = [] ∨ strContains (latin1Decode ib) r.old_path = false) :
    processToken rf rules st tok = st := by
  unfold processToken
  cases hdec : pyB64decode tok with
  | none => rfl
  | some ib =>
    dsimp only
    rw [foldl_applyRule_no_match rf tok rules
      { text := latin1Decode ib, changed := false, report := st.report }
      (h ib hdec)]
    rfl

/-- Folding over tokens none of which match any rule is the identity. -/
theorem foldl_processToken_no_match (rf : Bool) (rules : List Rule) :
    ∀ (toks : List (List Nat)) (ost : OuterSt),
      (∀ tok ∈ toks, ∀ ib, pyB64decode tok = some ib → ∀ r ∈ rules,
          r.old_path = [] ∨ strContains (latin1Decode ib) r.old_path = false) →
      toks.foldl (processToken rf rules) ost = ost := by
  intro toks
  induction toks with
  | nil => intro ost _; rfl
  | cons tok ts ih =>
    intro ost h
    rw [List.foldl_cons,
      processToken_no_match rf rules ost tok (h tok (List.mem_cons_self tok ts))]
    exact ih ost (fun t ht => h t (List.mem_cons_of_mem tok ht))

/-- An outer block none of whose decoded inner texts matches any rule
leaves an unchanged block state unchanged. -/
theorem processOuterBlock_no_match (rf : Bool) (rules : List Rule)
    (bt : List Nat) (rep : List RepEntry) (blk : List Nat × List Nat)
    (h : ∀ t ∈ blockInnerTexts blk, ∀ r ∈ rules,
        r.old_path = [] ∨ strContains t r.old_path = false) :
    processOuterBlock rf rules ⟨bt, false, rep⟩ blk = ⟨bt, false, rep⟩ := by
  unfold processOuterBlock
  cases hdec : pyB64decode blk.1 with
  | none => rfl
  | some ob =>
    dsimp only
    rw [foldl_processToken_no_match rf rules (findB64Runs (latin1Decode ob))
      { otext := latin1Decode ob, obytes := ob, changed := false,
        report := rep } ?_]
    · rfl
    · intro tok htok ib hib r hr
      refine h (latin1Decode ib) ?_ r hr
      unfold blockInnerTexts
      rw [hdec]
      exact List.mem_filterMap.mpr ⟨tok, htok, by rw [hib]; rfl⟩

/-- Folding over outer blocks with nothing to change is the identity. -/
theorem foldl_processOuterBlock_no_match (rf : Bool) (rules : List Rule)
    (bt : List Nat) (rep : List RepEntry) :
    ∀ (blocks : List (List Nat × List Nat)),
      (∀ blk ∈ blocks, ∀ t ∈ blockInnerTexts blk, ∀ r ∈ rules,
          r.old_path = [] ∨ strContains t r.old_path = false) →
      blocks.foldl (processOuterBlock rf rules) ⟨bt, false, rep⟩ =
        ⟨bt, false, rep⟩ := by
  intro blocks
  induction blocks with
  | nil => intro _; rfl
  | cons blk bs ih =>
    intro h
    rw [List.foldl_cons,
      processOuterBlock_no_match rf rules bt rep blk
        (h blk (List.mem_cons_self blk bs))]
    exact ih (fun b hb => h b (List.mem_cons_of_mem blk hb))

/-- When no rule's old path occurs in any decoded inner token of a span,
`replace_in_block` returns the span unchanged with `changed = False` and
an empty report. -/
theorem replace_in_block_no_match (bt : List Nat) (rules : List Rule)
    (rf : Bool)
    (H : ∀ t ∈ decodedInnerTexts bt, ∀ r ∈ rules,
        r.old_path = [] ∨ strContains t r.old_path = false) :
    replace_in_block bt rules rf = ⟨bt, false, []⟩ := by
  unfold replace_in_block
  refine foldl_processOuterBlock_no_match rf rules bt [] _ ?_
  intro blk hblk t ht r hr
  exact H t
    ((mem_foldr_append blockInnerTexts (collectOuterBlocks bt) t).mpr
      ⟨blk, hblk, ht⟩) r hr

/-- Positivity of the occurrence counter: a substring hit means at least
one counted occurrence. -/
theorem strContains_pyCountGo_pos (pat : List Nat) (hpat : pat ≠ []) :
    ∀ (fuel : Nat) (s : List Nat), s.length ≤ fuel →
      strContains s pat = true → 1 ≤ pyCountGo fuel s pat := by
  intro fuel
  induction fuel with
  | zero =>
    intro s hs hc
    have hnil : s = [] := List.eq_nil_of_length_eq_zero (Nat.le_zero.mp hs)
    subst hnil
    unfold strContains at hc
    exact absurd (List.isEmpty_iff.mp hc) hpat
  | succ f ih =>
    intro s hs hc
    cases s with
    | nil =>
      unfold strContains at hc
      exact absurd (List.isEmpty_iff.mp hc) hpat
    | cons a t =>
      unfold pyCountGo
      cases hp : pat.isPrefixOf (a :: t) with
      | true => simp [hp]
      | false =>
        simp only [hp, Bool.false_eq_true, if_false]
        refine ih t ?_ ?_
        · simp only [List.length_cons] at hs
          omega
        · unfold strContains at hc
          rw [hp] at hc
          simpa using hc

/-- A substring hit implies a positive Python count. -/
theorem pyCount_pos (s pat : List Nat) (hpat : pat ≠ [])
    (hc : strContains s pat = true) : 1 ≤ pyCount s pat := by
  unfold pyCount
  have hie : pat.isEmpty = false := by
    cases hp : pat with
    | nil => exact absurd hp hpat
    | cons a t => rfl
  rw [hie]
  simpa using strContains_pyCountGo_pos pat hpat s.length s (Nat.le_refl _) hc

/-- `fragFoundGo` returns the result of the first token that decodes and
matches, and consults no earlier-failing token twice. -/
theorem fragFoundGo_first (l : List (List Nat)) :
    (∀ p, fragFoundGo l = some p →
      ∃ pre tok post, l = pre ++ tok :: post ∧
        (∀ t ∈ pre, decodeSearchTok t = none) ∧ decodeSearchTok tok = some p) ∧
    (fragFoundGo l = none → ∀ t ∈ l, decodeSearchTok t = none) := by
  induction l with
  | nil =>
    constructor
    · intro p h
      exact absurd h (by unfold fragFoundGo; simp)
    · intro _ t ht
      exact absurd ht (by simp)
  | cons tok rest ih =>
    have hstep : fragFoundGo (tok :: rest) =
        match decodeSearchTok tok with
        | some p => some p
        | none => fragFoundGo rest := by
      cases hdec : pyB64decode tok with
      | none => simp [fragFoundGo, decodeSearchTok, hdec]
      | some ib =>
        cases hs : injPathSearch (latin1Decode ib) with
        | none => simp [fragFoundGo, decodeSearchTok, hdec, hs]
        | some q => simp [fragFoundGo, decodeSearchTok, hdec, hs]
    cases hds : decodeSearchTok tok with
    | some q =>
      rw [hstep, hds]
      dsimp only
      constructor
      · intro p h
        injection h with h1
        subst h1
        exact ⟨[], tok, rest, rfl, by intro t ht; exact absurd ht (by simp),
          hds⟩
      · intro h
        exact Option.noConfusion h
    | none =>
      rw [hstep, hds]
      dsimp only
      constructor
      · intro p h
        obtain ⟨pre, tk, post, heq, hpre, htk⟩ := ih.1 p h
        refine ⟨tok :: pre, tk, post, by simp [heq], ?_, htk⟩
        intro t ht
        rcases List.mem_cons.mp ht with h1 | h1
        · exact h1 ▸ hds
        · exact hpre t h1
      · intro h t ht
        rcases List.mem_cons.mp ht with h1 | h1
        · exact h1 ▸ hds
        · exact ih.2 h t h1

/-- `find?` by key over a cons cell. -/
theorem find?_key_cons (k : IdKey) (x : IdKey × List Nat)
    (l : List (IdKey × List Nat)) :
    List.find? (fun e => decide (e.1 = k)) (x :: l) =
      if x.1 = k then some x else List.find? (fun e => decide (e.1 = k)) l := by
  by_cases hx : x.1 = k
  · rw [List.find?_cons_of_pos _ (by simp [hx]), if_pos hx]
  · rw [List.find?_cons_of_neg _ (by simp [hx]), if_neg hx]

/-- Dict lookup over a cons cell. -/
theorem dictLookup_cons (k : IdKey) (x : IdKey × List Nat) (l : SnapMap) :
    dictLookup (x :: l) k = if x.1 = k then some x.2 else dictLookup l k := by
  unfold dictLookup
  rw [find?_key_cons]
  by_cases hx : x.1 = k
  · rw [if_pos hx, if_pos hx]
    rfl
  · rw [if_neg hx, if_neg hx]

/-- Lookup after a Python dict assignment. -/
theorem dictLookup_dictInsert :
    ∀ (m : SnapMap) (a : IdKey) (v : List Nat) (k : IdKey),
      dictLookup (dictInsert m a v) k =
        if a = k then some v else dictLookup m k := by
  intro m
  induction m with
  | nil =>
    intro a v k
    show dictLookup [(a, v)] k = _
    rw [dictLookup_cons]
  | cons e es ih =>
    intro a v k
    show dictLookup (if e.1 = a then (a, v) :: es else e :: dictInsert es a v)
        k = _
    by_cases hea : e.1 = a
    · rw [if_pos hea, dictLookup_cons, dictLookup_cons]
      dsimp only
      by_cases hak : a = k
      · rw [if_pos hak, if_pos hak]
      · have hek : ¬ e.1 = k := fun h => hak (hea.symm.trans h)
        rw [if_neg hak, if_neg hak, if_neg hek]
    · rw [if_neg hea, dictLookup_cons, dictLookup_cons, ih]
      by_cases hek : e.1 = k
      · have hak : ¬ a = k := fun h => hea (hek.trans h.symm)
        rw [if_pos hek, if_pos hek, if_neg hak]
      · rw [if_neg hek, if_neg hek]

/-- Lookup after an insert-if-absent. -/
theorem dictLookup_insertIfAbsent (m : SnapMap) (a : IdKey) (v : List Nat)
    (k : IdKey) :
    dictLookup (insertIfAbsent m a v) k =
      match dictLookup m k with
      | some w => some w
      | none => if a = k then some v else none := by
  unfold insertIfAbsent
  by_cases hp : (m.find? (fun e => decide (e.1 = a))).isSome
  · rw [if_pos hp]
    cases hm : dictLookup m k with
    | some w => rfl
    | none =>
      by_cases hak : a = k
      · exfalso
        subst hak
        rcases Option.isSome_iff_exists.mp hp with ⟨e, he⟩
        unfold dictLookup at hm
        rw [he] at hm
        simp at hm
      · simp [hak]
  · rw [if_neg hp]
    unfold dictLookup
    rw [List.find?_append]
    cases hm : m.find? (fun e => decide (e.1 = k)) with
    | some e => simp [Option.or]
    | none =>
      by_cases hak : a = k <;> simp [hak, Option.or, List.find?]

/-- Lookup after folding insert-if-absent over a list of entries:
the initial map has priority, then the first entry with the key. -/
theorem lookup_foldl_insertIfAbsent :
    ∀ (es : List (IdKey × List Nat)) (m : SnapMap) (k : IdKey),
      dictLookup (es.foldl (fun acc e => insertIfAbsent acc e.1 e.2) m) k =
        match dictLookup m k with
        | some w => some w
        | none => (es.find? (fun e => decide (e.1 = k))).map (fun e => e.2) := by
  intro es
  induction es with
  | nil =>
    intro m k
    rw [List.foldl_nil]
    cases hm : dictLookup m k <;> rfl
  | cons e es ih =>
    intro m k
    rw [List.foldl_cons, ih]
    rw [dictLookup_insertIfAbsent]
    cases hm : dictLookup m k with
    | some w => rfl
    | none =>
      by_cases hek : e.1 = k
      · rw [if_pos hek, find?_key_cons, if_pos hek]
        rfl
      · rw [if_neg hek, find?_key_cons, if_neg hek]

/-- `read_map` keeps the path of the last CSV row with a given identity
tuple. -/
theorem read_map_last_wins (rows : List CsvRow) (k : IdKey) :
    dictLookup (read_map rows) k =
      (rows.reverse.find? (fun r => decide (csvRowKey r = k))).map
        CsvRow.path := by
  induction rows using List.reverseRecOn with
  | nil => rfl
  | append_singleton rs r ih =>
    have hfold : read_map (rs ++ [r]) =
        dictInsert (read_map rs) (csvRowKey r) r.path := by
      unfold read_map
      rw [List.foldl_append]
      rfl
    rw [hfold, dictLookup_dictInsert, List.reverse_append]
    by_cases hk : csvRowKey r = k
    · simp [hk, List.find?]
    · simp [hk, List.find?, ih]

/-! ### Claim theorems -/

/-- Claim C1 (code-bug evidence): in the span `ex1Block`, the second
outer block `(ex1B2joined, ex1B2orig)` has no inner tokens at all, yet
after the engine changes the first block, the second block's original
text no longer appears in the returned span text — line 97 of
`readrum_injector.py` re-encodes it because the function-global
`changed` flag is already set, re-wrapping its two 20-character lines
into one 40-character line. -/
theorem c1_code_bug_eval :
    (ex1B2joined, ex1B2orig) ∈ collectOuterBlocks ex1Block ∧
    blockInnerTexts (ex1B2joined, ex1B2orig) = [] ∧
    (replace_in_block ex1Block ex1Reps true).changed = true ∧
    strContains ex1Block ex1B2orig = true ∧
    strContains (replace_in_block ex1Block ex1Reps true).btext ex1B2orig =
      false := by decide

/-- Claim C2 counterexample: the parser's `extract_paths_from_block`
keeps every match of every inner token — on `ex2Block`, whose outer
text is a single fragment (no `<CONTAINER` delimiter), it returns two
distinct path records, so extraction does not return at most one path
per fragment. -/
theorem c2_counterexample :
    extract_paths_from_block ex2Block =
      [([], str2c "/aa.wav"), ([], str2c "/bb.wav")] ∧
    (pySplit (latin1Decode exTok2) (str2c "<CONTAINER")).length = 1 ∧
    ¬ (str2c "/aa.wav" = str2c "/bb.wav") := by decide

/-- Claim C2 amended: for the injector's in-memory extraction
(`extract_map_from_rpl_text`), each container fragment yields at most
one path — the first match of the first inner token whose decode
contains a match — and when a path is returned, every earlier token of
the fragment yielded nothing; when none is returned, no token of the
fragment yields anything. -/
theorem c2_amended (frag : List Nat) :
    (∀ p, fragFound frag = some p →
      ∃ pre tok post, findB64Runs frag = pre ++ tok :: post ∧
        (∀ t ∈ pre, decodeSearchTok t = none) ∧
        decodeSearchTok tok = some p) ∧
    (fragFound frag = none →
      ∀ t ∈ findB64Runs frag, decodeSearchTok t = none) :=
  fragFoundGo_first (findB64Runs frag)

/-- Claim C2 witness: on the concrete fragment `exTok6` the extraction
returns the first (and only) token's path. -/
theorem c2_amended_witness :
    ∃ pre tok post, findB64Runs exTok6 = pre ++ tok :: post ∧
      (∀ t ∈ pre, decodeSearchTok t = none) ∧
      decodeSearchTok tok = some (str2c "/Users/s/Kick.wav") :=
  (c2_amended exTok6).1 (str2c "/Users/s/Kick.wav") (by decide)

/-- Claim C3 counterexample: with a rule whose new path contains its old
path, the second application of the same table still reports a change
(`changed = True`), so the Replacement Engine is not unconditionally
idempotent. -/
theorem c3_counterexample :
    (replace_in_block (replace_in_block ex3Block ex3Reps true).btext
      ex3Reps true).changed = true := by decide

/-- Claim C3 amended: the second application of the same table is a
no-op (returns the text unchanged with `changed = False` and an empty
report) provided no rule's old path occurs in any decoded inner token
of the first run's output — the spec's "no old-path substrings remain"
steady state. -/
theorem c3_amended (text : List Nat) (reps : List Rule) (rf : Bool)
    (H : ∀ t ∈ decodedInnerTexts (replace_in_block text reps rf).btext,
      ∀ r ∈ reps, r.old_path = [] ∨ strContains t r.old_path = false) :
    replace_in_block (replace_in_block text reps rf).btext reps rf =
      { btext := (replace_in_block text reps rf).btext, changed := false,
        report := [] } :=
  replace_in_block_no_match _ _ _ H

/-- Claim C3 witness: after rewriting `ex3Block` with a rule whose new
path does not contain the old path, the second run is a no-op. -/
theorem c3_amended_witness :
    replace_in_block (replace_in_block ex3Block ex1Reps true).btext
      ex1Reps true =
      { btext := (replace_in_block ex3Block ex1Reps true).btext,
        changed := false, report := [] } :=
  c3_amended ex3Block ex1Reps true (by decide)

/-- Claim C4: when the rewrite loop detects no change, the write phase
performs no file-system action at all; and whenever the new content is
written, the rename of the original to the `.bak` path comes strictly
first in the effect trace. -/
theorem c4_backup_order (text : List Nat) (reps : List Rule) (dry : Bool) :
    ((mainRewrite text reps).2 = false → mainFsActions text reps dry = []) ∧
    (FsAction.writeNewContent ∈ mainFsActions text reps dry →
      mainFsActions text reps dry =
        [FsAction.renameToBak, FsAction.writeNewContent]) := by
  unfold mainFsActions
  cases hm : (mainRewrite text reps).2 with
  | false => cases dry <;> simp
  | true => cases dry <;> simp

/-- Claim C4 witness: an unchanged input yields no actions, and the
modified input `ex9Text` yields rename-then-write. -/
theorem c4_backup_order_witness :
    mainFsActions [] [] false = [] ∧
    mainFsActions ex9Text ex1Reps false =
      [FsAction.renameToBak, FsAction.writeNewContent] :=
  ⟨(c4_backup_order [] [] false).1 (by decide),
   (c4_backup_order ex9Text ex1Reps false).2 (by decide)⟩

/-- Claim C5: for a rule whose non-empty old path occurs in the current
decoded token text, the engine replaces every (non-overlapping, as
Python counts them) occurrence via `pyReplace`, marks the token
changed, and reports an entry whose count is the Python occurrence
count, which is at least 1. -/
theorem c5_replace_all_count (rf : Bool) (token s : List Nat) (ch : Bool)
    (rep : List RepEntry) (r : Rule)
    (h1 : r.old_path ≠ []) (h2 : strContains s r.old_path = true) :
    applyRule rf token { text := s, changed := ch, report := rep } r =
      { text := pyReplace s r.old_path r.new_path, changed := true,
        report :=
          if rf then
            rep ++ [{ old_path := r.old_path, new_path := r.new_path,
                      count := pyCount s r.old_path,
                      tokenHead := token.take 20 }]
          else rep } ∧
    1 ≤ pyCount s r.old_path := by
  have hie : r.old_path.isEmpty = false := by
    cases hro : r.old_path with
    | nil => exact absurd hro h1
    | cons a t => rfl
  constructor
  · unfold applyRule
    dsimp only
    rw [hie, h2]
    rfl
  · exact pyCount_pos s r.old_path h1 h2

/-- Claim C5 witness: the spec's example — an old path occurring exactly
twice inside one token text is fully replaced and reported with
count 2. -/
theorem c5_replace_all_count_witness :
    applyRule true ex5Token { text := ex5Text, changed := false, report := [] }
        ex5Rule =
      { text := pyReplace ex5Text ex5Rule.old_path ex5Rule.new_path,
        changed := true,
        report :=
          if true then
            [] ++ [{ old_path := ex5Rule.old_path,
                     new_path := ex5Rule.new_path,
                     count := pyCount ex5Text ex5Rule.old_path,
                     tokenHead := ex5Token.take 20 }]
          else [] } ∧
    pyCount ex5Text ex5Rule.old_path = 2 :=
  ⟨(c5_replace_all_count true ex5Token ex5Text false [] ex5Rule (by decide)
      (by decide)).1, by decide⟩

/-- Claim C6 counterexample: the injector's in-memory extraction stores
note `"2"` and container `"Kick"` for `ex6Text`; the note is not the
text of the container field before its first colon (the container has
no colon, so the claim's derivation yields the empty string). -/
theorem c6_counterexample :
    extract_map_from_rpl_text ex6Text =
      [((str2c "P", str2c "Kick", str2c "2"), str2c "/Users/s/Kick.wav")] ∧
    ¬ (str2c "2" = noteOfContainerClaim (str2c "Kick")) := by decide

/-- Claim C6 amended: for every record produced by the parser, the note
equals the whitespace-stripped text of the container before its first
colon (empty when the container has no colon); the injector's
extraction instead takes the note from the header's pre-colon capture
group, with the container holding only the post-colon text. -/
theorem c6_amended (text : List Nat) (pr : PathRecord)
    (h : pr ∈ readrumParserRows text) :
    pr.note = parserNoteOf pr.container := by
  unfold readrumParserRows at h
  obtain ⟨p, hp, hx⟩ :=
    (mem_foldr_append
      (fun p : PresetSpan =>
        (extract_paths_from_block p.block).map
          (fun cp => ({ preset := p.name, container := cp.1,
                        note := parserNoteOf cp.1,
                        path := cp.2 } : PathRecord)))
      (find_preset_blocks text) pr).mp h
  obtain ⟨cp, hcp, he⟩ := List.mem_map.mp hx
  rw [← he]

/-- Claim C6 witness: the record extracted by the parser from `ex6Text`
satisfies the amended note derivation. -/
theorem c6_amended_witness :
    ex6Record.note = parserNoteOf ex6Record.container :=
  c6_amended ex6Text ex6Record (by decide)

/-- Claim C7 counterexample: two CSV rows with the same identity tuple —
`read_map` keeps the second row's path, not the first. -/
theorem c7_counterexample :
    csvRowKey ex7Row1 = ex7Key ∧ csvRowKey ex7Row2 = ex7Key ∧
    ex7Row1.path = str2c "/old/x.wav" ∧
    dictLookup (read_map [ex7Row1, ex7Row2]) ex7Key =
      some (str2c "/new/x.wav") ∧
    ¬ (str2c "/new/x.wav" = str2c "/old/x.wav") := by decide

/-- Claim C7 amended: CSV snapshot loading (`read_map`) keeps the LAST
row's path per identity tuple, while the in-memory extraction's
insert-if-absent keeps the FIRST path per tuple. -/
theorem c7_amended :
    (∀ (rows : List CsvRow) (k : IdKey),
      dictLookup (read_map rows) k =
        (rows.reverse.find? (fun r => decide (csvRowKey r = k))).map
          CsvRow.path) ∧
    (∀ (es : List (IdKey × List Nat)) (k : IdKey),
      dictLookup (es.foldl (fun acc e => insertIfAbsent acc e.1 e.2) []) k =
        (es.find? (fun e => decide (e.1 = k))).map (fun e => e.2)) := by
  constructor
  · exact read_map_last_wins
  · intro es k
    rw [lookup_foldl_insertIfAbsent]
    rfl

/-- Claim C8 counterexample: with no replacement source at all, the
fatal missing-input error does occur, but an access to the input RPL
file strictly precedes it in the effect trace. -/
theorem c8_counterexample :
    MainEvent.readRplText ∈
      (mainPrelude false false false).takeWhile
        (fun e => !(e == MainEvent.fatalMissingInput)) ∧
    MainEvent.fatalMissingInput ∈ mainPrelude false false false := by decide

/-- Claim C8 amended: with no replacement source, `main` reads the input
RPL file's text first (line 121) and then terminates with the fatal
missing-input error (line 159), before any CSV read, parsing or
write. -/
theorem c8_amended :
    mainPrelude false false false =
      [MainEvent.readRplText, MainEvent.fatalMissingInput] := rfl

/-- Skipped presets (no targeting rule, or an unchanged engine run)
leave the main rewrite state untouched. -/
theorem foldl_mainStep_skip (reps : List Rule) :
    ∀ (l : List PresetSpan) (st : List (List Nat) × Bool),
      (∀ q ∈ l, targetRepsFor reps q.name = [] ∨
        (replace_in_block q.block (targetRepsFor reps q.name) true).changed =
          false) →
      l.foldl (mainStep reps) st = st := by
  intro l
  induction l with
  | nil => intro st _; rfl
  | cons q qs ih =>
    intro st h
    have hstep : mainStep reps st q = st := by
      rcases h q (List.mem_cons_self q qs) with hq | hq
      · simp [mainStep, hq]
      · simp [mainStep, hq]
    rw [List.foldl_cons, hstep]
    exact ih st (fun q' hq' => h q' (List.mem_cons_of_mem q hq'))

/-- Claim C9 counterexample: on the two-preset input `ex9Text`, where
both presets are modified, the first splice shortens the line list and
the second splice uses stale indices, destroying one of the two
closing `>` marker lines. -/
theorem c9_counterexample :
    ((pySplitlines true ex9Text).filter (fun L => isCloseLine L)).length =
      2 ∧
    ((mainRewrite ex9Text ex1Reps).1.filter (fun L => isCloseLine L)).length =
      1 := by decide

/-- Claim C9 amended: when exactly one preset span is modified (every
other span is skipped or unchanged), its splice replaces exactly the
lines strictly between the recorded marker indices: the opening marker
line (index `startIdx`) and everything from the closing `>` line
(index `endIdx`) on are preserved. -/
theorem c9_amended (text : List Nat) (reps : List Rule)
    (pre post : List PresetSpan) (p : PresetSpan)
    (hfpb : find_preset_blocks text = pre ++ p :: post)
    (hpre : ∀ q ∈ pre, targetRepsFor reps q.name = [] ∨
      (replace_in_block q.block (targetRepsFor reps q.name) true).changed =
        false)
    (hpost : ∀ q ∈ post, targetRepsFor reps q.name = [] ∨
      (replace_in_block q.block (targetRepsFor reps q.name) true).changed =
        false)
    (htr : targetRepsFor reps p.name ≠ [])
    (hch : (replace_in_block p.block (targetRepsFor reps p.name) true).changed
      = true)
    (hse : p.startIdx + 1 ≤ p.endIdx)
    (hend : p.endIdx ≤ (pySplitlines true text).length) :
    (mainRewrite text reps).1 =
      (pySplitlines true text).take (p.startIdx + 1) ++
        [(replace_in_block p.block (targetRepsFor reps p.name) true).btext] ++
        (pySplitlines true text).drop p.endIdx ∧
    (mainRewrite text reps).1.take (p.startIdx + 1) =
      (pySplitlines true text).take (p.startIdx + 1) ∧
    (mainRewrite text reps).1.drop (p.startIdx + 2) =
      (pySplitlines true text).drop p.endIdx := by
  have hie : (targetRepsFor reps p.name).isEmpty = false := by
    cases htre : targetRepsFor reps p.name with
    | nil => exact absurd htre htr
    | cons a t => rfl
  have hmain : mainRewrite text reps =
      ((pySplitlines true text).take (p.startIdx + 1) ++
        [(replace_in_block p.block (targetRepsFor reps p.name) true).btext] ++
        (pySplitlines true text).drop p.endIdx, true) := by
    unfold mainRewrite
    rw [hfpb, List.foldl_append, foldl_mainStep_skip reps pre _ hpre,
      List.foldl_cons]
    have hstep : mainStep reps (pySplitlines true text, false) p =
        (pySplice (pySplitlines true text) (p.startIdx + 1) p.endIdx
          [(replace_in_block p.block (targetRepsFor reps p.name) true).btext],
         true) := by
      simp [mainStep, hie, hch]
    rw [hstep, foldl_mainStep_skip reps post _ hpost]
    unfold pySplice
    dsimp only
    have h1 : min (p.startIdx + 1) (pySplitlines true text).length =
        p.startIdx + 1 := by omega
    have h2 : min (max (p.startIdx + 1) p.endIdx)
        (pySplitlines true text).length = p.endIdx := by omega
    rw [h1, h2]
  refine ⟨by rw [hmain], ?_, ?_⟩
  · rw [hmain]
    have hA : ((pySplitlines true text).take (p.startIdx + 1)).length =
        p.startIdx + 1 := by
      rw [List.length_take]; omega
    rw [List.append_assoc]
    exact List.take_left' hA
  · rw [hmain]
    have hA : ((pySplitlines true text).take (p.startIdx + 1) ++
        [(replace_in_block p.block (targetRepsFor reps p.name) true).btext]
      ).length = p.startIdx + 2 := by
      rw [List.length_append, List.length_take]
      simp
      omega
    exact List.drop_left' hA

/-- Claim C9 witness: on `ex9Text` with rules targeting only preset
`P1`, the rewrite replaces exactly the lines between `P1`'s markers. -/
theorem c9_amended_witness :
    (mainRewrite ex9Text ex9RepsP1).1 =
      (pySplitlines true ex9Text).take (ex9P.startIdx + 1) ++
        [(replace_in_block ex9P.block (targetRepsFor ex9RepsP1 ex9P.name)
            true).btext] ++
        (pySplitlines true ex9Text).drop ex9P.endIdx ∧
    (mainRewrite ex9Text ex9RepsP1).1.take (ex9P.startIdx + 1) =
      (pySplitlines true ex9Text).take (ex9P.startIdx + 1) ∧
    (mainRewrite ex9Text ex9RepsP1).1.drop (ex9P.startIdx + 2) =
      (pySplitlines true ex9Text).drop ex9P.endIdx :=
  c9_amended ex9Text ex9RepsP1 [] [ex9Q] ex9P (by decide) (by decide)
    (by decide) (by decide) (by decide) (by decide) (by decide)

/-- Claim C10: a rule with an empty old path is never applied — the
engine returns every span unchanged with no report entry, and the
single rule step is the identity on any token state — even though the
empty string is a substring of every decoded text. -/
theorem c10_empty_old_noop :
    (∀ (bt p c nw : List Nat) (rf : Bool),
      replace_in_block bt
        [{ preset := p, container := c, old_path := [], new_path := nw }]
        rf =
        { btext := bt, changed := false, report := [] }) ∧
    (∀ (rf : Bool) (tok : List Nat) (st : InnerSt) (p c nw : List Nat),
      applyRule rf tok st
        { preset := p, container := c, old_path := [], new_path := nw } =
        st) ∧
    (∀ t : List Nat, strContains t [] = true) := by
  refine ⟨?_, ?_, ?_⟩
  · intro bt p c nw rf
    apply replace_in_block_no_match
    intro t _ r hr
    have hr2 := List.mem_singleton.mp hr
    subst hr2
    exact Or.inl rfl
  · intro rf tok st p c nw
    rfl
  · intro t
    cases t <;> rfl
